import Mathlib

/-!
Shallow embedding of `src/react/features/base/media/components/web/Video.js`
(the `Video` React component of jitsi-meet) together with the external
track-attachment library interface it calls into.

Modelling choices:
* Surfaces (DOM/temasys video elements) and underlying media handles
  (`JitsiTrack` objects) are identified by natural numbers, so that the
  JavaScript reference-identity comparisons (`!==`, `includes`) become
  decidable equality.
* A JavaScript value that may be absent (`null`/`undefined`/falsy) is an
  `Option`.  The component only ever branches on truthiness of
  `videoTrack` and `videoTrack.jitsiTrack`, so collapsing the distinct
  falsy values into `none` is observation-preserving.
* The external library (not part of this repository) is modelled from the
  spec's description of its interface: `attach(surface) -> surface`
  (possibly returning a replacement surface), `detach(surface)`, and a
  `containers` set of surfaces per track handle.  Calls into it are
  recorded in an event trace.
* The host rendering system's lifecycle driving (constructor, `ref`
  callback, then `componentDidMount`; prop assignment after
  `shouldComponentUpdate`) is modelled by `hostMount` / `hostUpdate`.
-/

namespace VideoSpec

/-- Reference identity of a renderable video surface (DOM element or temasys object). -/
abbrev Surface := Nat

/-- Reference identity of an underlying media handle (a `JitsiTrack`). -/
abbrev Handle := Nat

/-- The redux representation of a track, as consumed by `Video.js`: a record
whose `jitsiTrack` field holds the underlying media handle (or is absent).
The `rest` field abstracts the remaining fields of the redux record, which
`Video.js` never reads; it lets two structurally different wrapping records
carry the identical handle. -/
structure VideoTrack where
  jitsiTrack : Option Handle
  rest : Nat
deriving DecidableEq

/-- The component's props (`propTypes` of `Video.js`).  `onVideoPlaying`
records whether the optional callback is configured. -/
structure Props where
  className : String
  id : String
  videoTrack : Option VideoTrack
  onVideoPlaying : Bool
deriving DecidableEq

/-- The mutable instance state of a `Video` component: the `_videoElement`
reference (set by the `ref` callback / `_setVideoElement`) and `this.props`. -/
structure Comp where
  _videoElement : Option Surface
  props : Props
deriving DecidableEq

/-- State of the world outside the component: the external library's
`containers` sets (which surfaces each handle is attached to), and the two
element fields the component writes on mount (`volume`, `onplaying`). -/
structure World where
  containers : Handle → List Surface
  volume : Surface → Nat
  onplaying : Surface → Bool

/-- Behaviour of the external library's `attach`: given the handle and the
surface passed in, the surface it returns (temasys may substitute a
different object). -/
abbrev Lib := Handle → Option Surface → Surface

/-- Observable calls made by the component: writes of the element fields on
mount, calls into the external library, and invocation of the configured
playback callback. -/
inductive Event where
  | setVolume : Surface → Nat → Event
  | setOnPlaying : Surface → Event
  | attach : Handle → Option Surface → Event
  | detach : Handle → Surface → Event
  | playbackStarted : Event
deriving DecidableEq

/-- Effect of the external library's `attach(h, _)` returning surface `s2` on
its `containers` bookkeeping: `s2` is added to `h`'s container set
(the library records the surface it returned). -/
def World.attachUpd (w : World) (h : Handle) (s2 : Surface) : World :=
  { w with containers := fun h2 =>
      if h2 = h then (w.containers h).insert s2 else w.containers h2 }

/-- Effect of the external library's `detach(h, s)` on its `containers`
bookkeeping: `s` is removed from `h`'s container set. -/
def World.detachUpd (w : World) (h : Handle) (s : Surface) : World :=
  { w with containers := fun h2 =>
      if h2 = h then (w.containers h).filter (fun x => x ≠ s) else w.containers h2 }

/-- `this.props.videoTrack && this.props.videoTrack.jitsiTrack` as an
optional handle. -/
def jitsiTrackOf (vt : Option VideoTrack) : Option Handle :=
  match vt with
  | none => none
  | some t => t.jitsiTrack

/-- `_setVideoElement(element)` (Video.js lines 214-216): stores the element
in the `_videoElement` instance variable. -/
def _setVideoElement (c : Comp) (element : Option Surface) : Comp :=
  { c with _videoElement := element }

/-- `_attachTrack(videoTrack)` (Video.js lines 156-167): no-op when the track
is absent or has no `jitsiTrack`; otherwise calls
`videoTrack.jitsiTrack.attach(this._videoElement)` and stores the returned
(possibly replaced) element via `_setVideoElement`. -/
def _attachTrack (L : Lib) (c : Comp) (w : World) (videoTrack : Option VideoTrack) :
    Comp × World × List Event :=
  match videoTrack with
  | none => (c, w, [])
  | some t =>
    match t.jitsiTrack with
    | none => (c, w, [])
    | some h =>
      let updatedVideoElement := L h c._videoElement
      (_setVideoElement c (some updatedVideoElement),
       w.attachUpd h updatedVideoElement,
       [Event.attach h c._videoElement])

/-- `_detachTrack(videoTrack)` (Video.js lines 180-192): calls
`videoTrack.jitsiTrack.detach(this._videoElement)` only when `_videoElement`
exists, the track is given, it has a `jitsiTrack`, and that handle's
`containers` includes `_videoElement`. -/
def _detachTrack (c : Comp) (w : World) (videoTrack : Option VideoTrack) :
    World × List Event :=
  match c._videoElement with
  | none => (w, [])
  | some s =>
    match videoTrack with
    | none => (w, [])
    | some t =>
      match t.jitsiTrack with
      | none => (w, [])
      | some h =>
        if s ∈ w.containers h then (w.detachUpd h s, [Event.detach h s]) else (w, [])

/-- Effect of `componentDidMount`'s two element writes on surface `s`:
`volume := 0` and the `onplaying` handler installed. -/
def World.mountUpd (w : World) (s : Surface) : World :=
  { w with volume := fun s2 => if s2 = s then 0 else w.volume s2,
           onplaying := fun s2 => if s2 = s then true else w.onplaying s2 }

/-- `componentDidMount()` (Video.js lines 81-88): sets `_videoElement.volume`
to `0`, registers `_onVideoPlaying` as the element's `onplaying` handler,
then calls `_attachTrack(this.props.videoTrack)`.  React guarantees the
`ref` callback has run before mount, so `_videoElement` is present; the
`none` branch is unreachable in the modelled lifecycle. -/
def componentDidMount (L : Lib) (c : Comp) (w : World) : Comp × World × List Event :=
  match c._videoElement with
  | none => (c, w, [])
  | some s =>
    let a := _attachTrack L c (w.mountUpd s) c.props.videoTrack
    (a.1, a.2.1, Event.setVolume s 0 :: Event.setOnPlaying s :: a.2.2)

/-- `componentWillUnmount()` (Video.js lines 97-99): detaches the current
track. -/
def componentWillUnmount (c : Comp) (w : World) : World × List Event :=
  _detachTrack c w c.props.videoTrack

/-- `shouldComponentUpdate(nextProps)` (Video.js lines 112-124): compares
identity of the current and next `videoTrack.jitsiTrack`; when they differ,
detaches the current track and attaches the next; always returns `false`.
Result: (returned boolean, component state, world, trace of calls). -/
def shouldComponentUpdate (L : Lib) (c : Comp) (w : World) (nextProps : Props) :
    Bool × Comp × World × List Event :=
  if jitsiTrackOf c.props.videoTrack ≠ jitsiTrackOf nextProps.videoTrack then
    let d := _detachTrack c w c.props.videoTrack
    let a := _attachTrack L c d.1 nextProps.videoTrack
    (false, a.1, a.2.1, d.2 ++ a.2.2)
  else
    (false, c, w, [])

/-- `_onVideoPlaying()` (Video.js lines 200-204): invokes the configured
`onVideoPlaying` callback, if any. -/
def _onVideoPlaying (c : Comp) : List Event :=
  if c.props.onVideoPlaying then [Event.playbackStarted] else []

/-- The video child element produced by `render()`: autoplay flag, the
`className` and `id` props, and whether the `ref` surface-capture callback
(`_setVideoElement`) is installed. -/
structure VideoElement where
  autoPlay : Bool
  className : String
  id : String
  ref : Bool
deriving DecidableEq

/-- The rendered tree of `render()` (Video.js lines 132-145): a stable
wrapper `div` whose single child is the video element. -/
structure RenderOutput where
  videoChild : VideoElement
deriving DecidableEq

/-- `render()` (Video.js lines 132-145). -/
def render (c : Comp) : RenderOutput :=
  { videoChild :=
      { autoPlay := true,
        className := c.props.className,
        id := c.props.id,
        ref := true } }

/-- Host-driven mount: the constructor initialises `_videoElement := null`,
the host renders and the `ref` callback stores the freshly created surface
`s0`, then `componentDidMount` runs. -/
def hostMount (L : Lib) (props : Props) (s0 : Surface) (w : World) :
    Comp × World × List Event :=
  componentDidMount L (_setVideoElement { _videoElement := none, props := props } (some s0)) w

/-- Host-driven update: `shouldComponentUpdate(nextProps)` runs (its `false`
return suppresses re-rendering), after which React installs `nextProps` as
`this.props` regardless of the returned boolean. -/
def hostUpdate (L : Lib) (c : Comp) (w : World) (nextProps : Props) :
    Comp × World × List Event :=
  let r := shouldComponentUpdate L c w nextProps
  ({ r.2.1 with props := nextProps }, r.2.2.1, r.2.2.2)

/-- Whether an event is a call into the external library's `attach`. -/
def Event.isAttach : Event → Bool
  | Event.attach _ _ => true
  | _ => false

/-- Whether an event is a call into the external library's `detach`. -/
def Event.isDetach : Event → Bool
  | Event.detach _ _ => true
  | _ => false

/-- Number of external `attach` calls in a trace. -/
def countAttach (evs : List Event) : Nat := (evs.filter Event.isAttach).length

/-- Number of external `detach` calls in a trace. -/
def countDetach (evs : List Event) : Nat := (evs.filter Event.isDetach).length

/-- A surface that is in no handle's container set. -/
def freshIn (w : World) (s : Surface) : Prop := ∀ h, s ∉ w.containers h

/-- Sanity condition on the external library's `attach` with respect to a
world: it returns either the surface it was given, or a surface attached to
no track (temasys substitutes a freshly created object). -/
def libOk (L : Lib) (w : World) : Prop :=
  ∀ h s, some (L h s) = s ∨ freshIn w (L h s)

/-- Mounted component states reachable through the host-driven lifecycle,
starting from the unmounted (just-constructed) component: a mount onto a
freshly created surface, followed by any number of prop updates, with
unmount's detach possibly interleaved as the final world change. -/
inductive Reachable (L : Lib) : Comp → World → Prop
  | mount (props : Props) (s0 : Surface) (w0 : World)
      (hfresh : freshIn w0 s0) (hlib : libOk L w0) :
      Reachable L (hostMount L props s0 w0).1 (hostMount L props s0 w0).2.1
  | update (c : Comp) (w : World) (next : Props)
      (hr : Reachable L c w) (hlib : libOk L w) :
      Reachable L (hostUpdate L c w next).1 (hostUpdate L c w next).2.1
  | unmount (c : Comp) (w : World) (hr : Reachable L c w) :
      Reachable L c (componentWillUnmount c w).1

/-- Auxiliary invariant: any handle whose container set includes the stored
surface is the handle of the component's current track. -/
def surfaceOwnedBy (c : Comp) (w : World) : Prop :=
  ∀ s h, c._videoElement = some s → s ∈ w.containers h →
    jitsiTrackOf c.props.videoTrack = some h

/-- At most one track is attached to the component's stored surface. -/
def atMostOneAttached (c : Comp) (w : World) : Prop :=
  ∀ s h1 h2, c._videoElement = some s →
    s ∈ w.containers h1 → s ∈ w.containers h2 → h1 = h2

lemma mem_attachUpd {w : World} {h h2 : Handle} {s s2 : Surface} :
    s ∈ (w.attachUpd h s2).containers h2 ↔ (h2 = h ∧ s = s2) ∨ s ∈ w.containers h2 := by
  simp only [World.attachUpd]
  rcases eq_or_ne h2 h with rfl | hh
  · rw [if_pos rfl, List.mem_insert_iff]
    constructor
    · rintro (rfl | hs)
      · exact Or.inl ⟨rfl, rfl⟩
      · exact Or.inr hs
    · rintro (⟨-, rfl⟩ | hs)
      · exact Or.inl rfl
      · exact Or.inr hs
  · rw [if_neg hh]
    constructor
    · exact Or.inr
    · rintro (⟨rfl, -⟩ | hs)
      · exact absurd rfl hh
      · exact hs

lemma mem_detachUpd {w : World} {h h2 : Handle} {s s0 : Surface} :
    s ∈ (w.detachUpd h s0).containers h2 ↔ s ∈ w.containers h2 ∧ ¬(h2 = h ∧ s = s0) := by
  simp only [World.detachUpd]
  rcases eq_or_ne h2 h with rfl | hh
  · rw [if_pos rfl]
    simp only [List.mem_filter, decide_eq_true_eq]
    constructor
    · rintro ⟨hs, hne⟩
      exact ⟨hs, fun hx => hne hx.2⟩
    · rintro ⟨hs, hne⟩
      exact ⟨hs, fun hx => hne ⟨trivial, hx⟩⟩
  · rw [if_neg hh]
    constructor
    · exact fun hs => ⟨hs, fun hx => hh hx.1⟩
    · exact fun hs => hs.1

lemma containers_mountUpd (w : World) (s : Surface) :
    (w.mountUpd s).containers = w.containers := rfl

lemma attachTrack_absent (L : Lib) (c : Comp) (w : World) (vt : Option VideoTrack)
    (hj : jitsiTrackOf vt = none) : _attachTrack L c w vt = (c, w, []) := by
  rcases vt with _ | t
  · rfl
  · simp only [jitsiTrackOf] at hj
    simp only [_attachTrack, hj]

lemma attachTrack_present (L : Lib) (c : Comp) (w : World) (t : VideoTrack) (h : Handle)
    (ht : t.jitsiTrack = some h) :
    _attachTrack L c w (some t) =
      ({ c with _videoElement := some (L h c._videoElement) },
       w.attachUpd h (L h c._videoElement),
       [Event.attach h c._videoElement]) := by
  simp only [_attachTrack, ht, _setVideoElement]

lemma detachTrack_noSurface (c : Comp) (w : World) (vt : Option VideoTrack)
    (hve : c._videoElement = none) : _detachTrack c w vt = (w, []) := by
  simp only [_detachTrack, hve]

lemma detachTrack_absent (c : Comp) (w : World) (vt : Option VideoTrack)
    (hj : jitsiTrackOf vt = none) : _detachTrack c w vt = (w, []) := by
  rcases hve : c._videoElement with _ | s
  · simp only [_detachTrack, hve]
  · rcases vt with _ | t
    · simp only [_detachTrack, hve]
    · simp only [jitsiTrackOf] at hj
      simp only [_detachTrack, hve, hj]

lemma detachTrack_notMem (c : Comp) (w : World) (s : Surface) (t : VideoTrack) (h : Handle)
    (hve : c._videoElement = some s) (ht : t.jitsiTrack = some h)
    (hmem : s ∉ w.containers h) : _detachTrack c w (some t) = (w, []) := by
  simp only [_detachTrack, hve, ht, if_neg hmem]

lemma detachTrack_mem (c : Comp) (w : World) (s : Surface) (t : VideoTrack) (h : Handle)
    (hve : c._videoElement = some s) (ht : t.jitsiTrack = some h)
    (hmem : s ∈ w.containers h) :
    _detachTrack c w (some t) = (w.detachUpd h s, [Event.detach h s]) := by
  simp only [_detachTrack, hve, ht, if_pos hmem]

lemma scu_same (L : Lib) (c : Comp) (w : World) (next : Props)
    (hj : jitsiTrackOf c.props.videoTrack = jitsiTrackOf next.videoTrack) :
    shouldComponentUpdate L c w next = (false, c, w, []) := by
  simp only [shouldComponentUpdate, hj, ne_eq, not_true_eq_false, if_false]

lemma scu_diff (L : Lib) (c : Comp) (w : World) (next : Props)
    (hj : jitsiTrackOf c.props.videoTrack ≠ jitsiTrackOf next.videoTrack) :
    shouldComponentUpdate L c w next =
      (false,
       (_attachTrack L c (_detachTrack c w c.props.videoTrack).1 next.videoTrack).1,
       (_attachTrack L c (_detachTrack c w c.props.videoTrack).1 next.videoTrack).2.1,
       (_detachTrack c w c.props.videoTrack).2 ++
         (_attachTrack L c (_detachTrack c w c.props.videoTrack).1 next.videoTrack).2.2) := by
  simp only [shouldComponentUpdate, ne_eq, hj, not_false_eq_true, if_true]

lemma componentDidMount_eq (L : Lib) (c : Comp) (w : World) (s : Surface)
    (hve : c._videoElement = some s) :
    componentDidMount L c w =
      ((_attachTrack L c (w.mountUpd s) c.props.videoTrack).1,
       (_attachTrack L c (w.mountUpd s) c.props.videoTrack).2.1,
       Event.setVolume s 0 :: Event.setOnPlaying s ::
         (_attachTrack L c (w.mountUpd s) c.props.videoTrack).2.2) := by
  simp only [componentDidMount, hve]

lemma hostMount_eq (L : Lib) (props : Props) (s0 : Surface) (w : World) :
    hostMount L props s0 w =
      componentDidMount L { _videoElement := some s0, props := props } w := rfl

lemma attachTrack_presentJ (L : Lib) (c : Comp) (w : World) (vt : Option VideoTrack) (h : Handle)
    (hj : jitsiTrackOf vt = some h) :
    _attachTrack L c w vt =
      ({ c with _videoElement := some (L h c._videoElement) },
       w.attachUpd h (L h c._videoElement),
       [Event.attach h c._videoElement]) := by
  rcases vt with _ | t
  · simp only [jitsiTrackOf] at hj
    exact Option.noConfusion hj
  · simp only [jitsiTrackOf] at hj
    exact attachTrack_present L c w t h hj

lemma detach_subset (c : Comp) (w : World) (vt : Option VideoTrack) (h : Handle) (s : Surface) :
    s ∈ ((_detachTrack c w vt).1).containers h → s ∈ w.containers h := by
  intro hs
  rcases hve : c._videoElement with _ | s1
  · simpa only [_detachTrack, hve] using hs
  · rcases vt with _ | t
    · simpa only [_detachTrack, hve] using hs
    · rcases ht : t.jitsiTrack with _ | h1
      · simpa only [_detachTrack, hve, ht] using hs
      · simp only [_detachTrack, hve, ht] at hs
        by_cases hmem : s1 ∈ w.containers h1
        · rw [if_pos hmem] at hs
          exact (mem_detachUpd.mp hs).1
        · rwa [if_neg hmem] at hs

/-- After `_detachTrack(this.props.videoTrack)`, the stored surface is in no
container set, provided it was owned by the current track beforehand. -/
lemma not_mem_after_detach (c : Comp) (w : World) (s : Surface)
    (hI : surfaceOwnedBy c w) (hve : c._videoElement = some s) :
    ∀ h, s ∉ ((_detachTrack c w c.props.videoTrack).1).containers h := by
  intro h hs
  rcases hvt : c.props.videoTrack with _ | t
  · simp only [_detachTrack, hve, hvt] at hs
    have h2 := hI s h hve hs
    rw [hvt] at h2
    simp only [jitsiTrackOf] at h2
    exact Option.noConfusion h2
  · rcases ht : t.jitsiTrack with _ | h1
    · simp only [_detachTrack, hve, hvt, ht] at hs
      have h2 := hI s h hve hs
      rw [hvt] at h2
      simp only [jitsiTrackOf, ht] at h2
      exact Option.noConfusion h2
    · simp only [_detachTrack, hve, hvt, ht] at hs
      by_cases hmem : s ∈ w.containers h1
      · rw [if_pos hmem] at hs
        rcases mem_detachUpd.mp hs with ⟨hs2, hne⟩
        have h2 := hI s h hve hs2
        rw [hvt] at h2
        simp only [jitsiTrackOf, ht, Option.some.injEq] at h2
        exact hne ⟨h2.symm, rfl⟩
      · rw [if_neg hmem] at hs
        have h2 := hI s h hve hs
        rw [hvt] at h2
        simp only [jitsiTrackOf, ht, Option.some.injEq] at h2
        exact hmem (h2 ▸ hs)

/-- Mounting onto a fresh surface establishes the ownership invariant. -/
lemma surfaceOwnedBy_hostMount (L : Lib) (props : Props) (s0 : Surface) (w : World)
    (hfresh : freshIn w s0) (hlib : libOk L w) :
    surfaceOwnedBy (hostMount L props s0 w).1 (hostMount L props s0 w).2.1 := by
  rw [hostMount_eq, componentDidMount_eq L _ w s0 rfl]
  rcases hnt : jitsiTrackOf props.videoTrack with _ | h1
  · rw [attachTrack_absent L _ _ _ hnt]
    intro s h hve hs
    rw [containers_mountUpd] at hs
    have hve2 : some s0 = some s := hve
    cases hve2
    exact absurd hs (hfresh h)
  · rw [attachTrack_presentJ L _ _ _ h1 hnt]
    intro s h hve hs
    have hve2 : some (L h1 (some s0)) = some s := hve
    cases hve2
    rcases mem_attachUpd.mp hs with ⟨rfl, -⟩ | hs2
    · exact hnt
    · rw [containers_mountUpd] at hs2
      rcases hlib h1 (some s0) with heq | hfr
      · have : L h1 (some s0) = s0 := Option.some.inj heq
        rw [this] at hs2
        exact absurd hs2 (hfresh h)
      · exact absurd hs2 (hfr h)

/-- A prop update preserves the ownership invariant. -/
lemma surfaceOwnedBy_hostUpdate (L : Lib) (c : Comp) (w : World) (next : Props)
    (hlib : libOk L w) (hI : surfaceOwnedBy c w) :
    surfaceOwnedBy (hostUpdate L c w next).1 (hostUpdate L c w next).2.1 := by
  by_cases hj : jitsiTrackOf c.props.videoTrack = jitsiTrackOf next.videoTrack
  · simp only [hostUpdate, scu_same L c w next hj]
    intro s h hve hs
    have h2 := hI s h hve hs
    rw [hj] at h2
    exact h2
  · simp only [hostUpdate, scu_diff L c w next hj]
    rcases hnt : jitsiTrackOf next.videoTrack with _ | hn
    · rw [attachTrack_absent L c _ _ hnt]
      intro s h hve hs
      exact absurd hs (not_mem_after_detach c w s hI hve h)
    · rw [attachTrack_presentJ L c _ _ hn hnt]
      intro s h hve hs
      have hve2 : some (L hn c._videoElement) = some s := hve
      cases hve2
      rcases mem_attachUpd.mp hs with ⟨rfl, -⟩ | hs2
      · exact hnt
      · rcases hlib hn c._videoElement with heq | hfr
        · exact absurd hs2 (not_mem_after_detach c w _ hI heq.symm h)
        · exact absurd (detach_subset c w c.props.videoTrack h _ hs2) (hfr h)

/-- Unmounting (which can only remove container entries) preserves the
ownership invariant. -/
lemma surfaceOwnedBy_unmount (c : Comp) (w : World) (hI : surfaceOwnedBy c w) :
    surfaceOwnedBy c (componentWillUnmount c w).1 := by
  intro s h hve hs
  exact hI s h hve (detach_subset c w c.props.videoTrack h s hs)

/-- Every reachable state satisfies the ownership invariant. -/
lemma reachable_surfaceOwnedBy (L : Lib) (c : Comp) (w : World) (hr : Reachable L c w) :
    surfaceOwnedBy c w := by
  induction hr with
  | mount props s0 w0 hfresh hlib => exact surfaceOwnedBy_hostMount L props s0 w0 hfresh hlib
  | update c w next hr hlib ih => exact surfaceOwnedBy_hostUpdate L c w next hlib ih
  | unmount c w hr ih => exact surfaceOwnedBy_unmount c w ih

lemma detachTrack_trace (c : Comp) (w : World) (vt : Option VideoTrack) (e : Event)
    (he : e ∈ (_detachTrack c w vt).2) :
    ∃ h s, c._videoElement = some s ∧ e = Event.detach h s := by
  rcases hve : c._videoElement with _ | s
  · rw [detachTrack_noSurface c w vt hve] at he
    exact absurd he (List.not_mem_nil e)
  · rcases vt with _ | t2
    · rw [detachTrack_absent c w none rfl] at he
      exact absurd he (List.not_mem_nil e)
    · rcases ht : t2.jitsiTrack with _ | h1
      · rw [detachTrack_absent c w (some t2) ht] at he
        exact absurd he (List.not_mem_nil e)
      · by_cases hmem : s ∈ w.containers h1
        · rw [detachTrack_mem c w s t2 h1 hve ht hmem] at he
          rw [List.mem_singleton.mp he]
          exact ⟨h1, s, rfl, rfl⟩
        · rw [detachTrack_notMem c w s t2 h1 hve ht hmem] at he
          exact absurd he (List.not_mem_nil e)

/-! Concrete fixtures used by counterexamples and witnesses. -/

/-- A concrete library behaviour: `attach` returns the surface it was given
(surface `0` when handed none). -/
def L0 : Lib := fun _ s => s.getD 0

/-- A world whose container sets are all empty. -/
def w0 : World :=
  { containers := fun _ => [], volume := fun _ => 1, onplaying := fun _ => false }

/-- A redux track wrapping handle `0`. -/
def trackA : VideoTrack := { jitsiTrack := some 0, rest := 0 }

/-- A structurally different redux track wrapping the same handle `0`. -/
def trackA2 : VideoTrack := { jitsiTrack := some 0, rest := 1 }

/-- A redux track wrapping handle `1`. -/
def trackB : VideoTrack := { jitsiTrack := some 1, rest := 0 }

/-- Props with no track. -/
def pNone : Props :=
  { className := "", id := "", videoTrack := none, onVideoPlaying := false }

/-- Props holding `trackA`. -/
def pA : Props :=
  { className := "", id := "", videoTrack := some trackA, onVideoPlaying := false }

/-- Props holding `trackA2` (same handle as `pA`, different wrapper and
callback configuration). -/
def pA2 : Props :=
  { className := "", id := "", videoTrack := some trackA2, onVideoPlaying := true }

/-- Props holding `trackB`. -/
def pB : Props :=
  { className := "", id := "", videoTrack := some trackB, onVideoPlaying := false }

/-- A world where handle `0` has surface `5` attached. -/
def wA : World :=
  { containers := fun h => if h = 0 then [5] else [],
    volume := fun _ => 1, onplaying := fun _ => false }

/-- A mounted component displaying `trackA` on stored surface `5`. -/
def cA : Comp := { _videoElement := some 5, props := pA }

/-- A component mounted with no track, stored surface `5`. -/
def cNone : Comp := { _videoElement := some 5, props := pNone }

/-- C1: for every pair of current and next configurations (and any library
behaviour and world state), `shouldComponentUpdate` returns `false`, whether
or not the track changed, so the component never re-renders in response to
prop changes. -/
theorem C1_shouldComponentUpdate_always_false (L : Lib) (c : Comp) (w : World)
    (next : Props) : (shouldComponentUpdate L c w next).1 = false := by
  by_cases hj : jitsiTrackOf c.props.videoTrack = jitsiTrackOf next.videoTrack
  · rw [scu_same L c w next hj]
  · rw [scu_diff L c w next hj]

/-- C2, counterexample: the claim "every update with a non-identical next
handle performs exactly one detach followed by exactly one attach" fails on
the code.  Concretely: mount with no track onto fresh surface `5`, then
update to props carrying `trackB`.  The handles differ (`none` vs
`some 1`), yet the hook performs zero detach calls (the detach guard fails
because there is no current track), while performing one attach. -/
theorem C2_counterexample :
    (hostMount L0 pNone 5 w0).1 = cNone ∧
    jitsiTrackOf cNone.props.videoTrack ≠ jitsiTrackOf pB.videoTrack ∧
    countDetach (shouldComponentUpdate L0 cNone (hostMount L0 pNone 5 w0).2.1 pB).2.2.2 = 0 ∧
    countAttach (shouldComponentUpdate L0 cNone (hostMount L0 pNone 5 w0).2.1 pB).2.2.2 = 1 := by
  refine ⟨rfl, by decide, rfl, rfl⟩

/-- C2, amended: for every update where the next handle is not identical to
the current one, IF the detach guard holds (a stored surface exists, the
current track is present with a handle whose containers include the stored
surface) and the next track is present with a handle, THEN the hook performs
exactly one detach of the current track followed by exactly one attach of
the next track, in that order, and returns `false`. -/
theorem C2_replace_detach_then_attach (L : Lib) (c : Comp) (w : World) (next : Props)
    (s : Surface) (t t2 : VideoTrack) (hc hn : Handle)
    (hve : c._videoElement = some s)
    (hcur : c.props.videoTrack = some t) (hct : t.jitsiTrack = some hc)
    (hmem : s ∈ w.containers hc)
    (hnext : next.videoTrack = some t2) (hnt : t2.jitsiTrack = some hn)
    (hne : hc ≠ hn) :
    (shouldComponentUpdate L c w next).2.2.2 =
      [Event.detach hc s, Event.attach hn (some s)] ∧
    (shouldComponentUpdate L c w next).1 = false := by
  have hj : jitsiTrackOf c.props.videoTrack ≠ jitsiTrackOf next.videoTrack := by
    rw [hcur, hnext]
    simp only [jitsiTrackOf, hct, hnt, ne_eq, Option.some.injEq]
    exact hne
  rw [scu_diff L c w next hj, hcur, hnext,
      detachTrack_mem c w s t hc hve hct hmem,
      attachTrack_presentJ L c _ (some t2) hn hnt, hve]
  exact ⟨rfl, rfl⟩

/-- C2, witness for the amended theorem: component displaying `trackA`
(handle `0`) on surface `5` attached in the world, updated to `trackB`
(handle `1`): exactly one detach of handle `0` then one attach of handle
`1`, returning `false`. -/
theorem C2_witness :
    (shouldComponentUpdate L0 cA wA pB).2.2.2 =
      [Event.detach 0 5, Event.attach 1 (some 5)] ∧
    (shouldComponentUpdate L0 cA wA pB).1 = false :=
  C2_replace_detach_then_attach L0 cA wA pB 5 trackA trackB 0 1
    rfl rfl rfl (by decide) rfl rfl (by decide)

/-- C3: when the current and next configurations hold the identical
underlying media handle (identity of `videoTrack.jitsiTrack`, regardless of
the wrapping records), the update hook performs zero attach calls and zero
detach calls into the external library. -/
theorem C3_same_handle_no_lib_calls (L : Lib) (c : Comp) (w : World) (next : Props)
    (h : Handle)
    (hcur : jitsiTrackOf c.props.videoTrack = some h)
    (hnext : jitsiTrackOf next.videoTrack = some h) :
    countAttach (shouldComponentUpdate L c w next).2.2.2 = 0 ∧
    countDetach (shouldComponentUpdate L c w next).2.2.2 = 0 := by
  rw [scu_same L c w next (hcur.trans hnext.symm)]
  exact ⟨rfl, rfl⟩

/-- C3, witness: `trackA` and `trackA2` are structurally different wrapping
records carrying the identical handle `0`; an update between them performs
zero attach/detach calls. -/
theorem C3_witness :
    countAttach (shouldComponentUpdate L0 cA wA pA2).2.2.2 = 0 ∧
    countDetach (shouldComponentUpdate L0 cA wA pA2).2.2.2 = 0 :=
  C3_same_handle_no_lib_calls L0 cA wA pA2 0 (by decide) (by decide)

/-- C4: after `_attachTrack` with a present track that has an underlying
media handle, the stored `_videoElement` equals the value returned by the
external `attach` call (not the surface passed in), and every detach event
a subsequent `_detachTrack` emits uses exactly that stored (possibly
replaced) surface. -/
theorem C4_attach_stores_returned_surface (L : Lib) (c : Comp) (w : World)
    (t : VideoTrack) (h : Handle) (ht : t.jitsiTrack = some h) :
    (_attachTrack L c w (some t)).1._videoElement = some (L h c._videoElement) ∧
    ∀ (w2 : World) (vt : Option VideoTrack) (e : Event),
      e ∈ (_detachTrack (_attachTrack L c w (some t)).1 w2 vt).2 →
      ∃ h2, e = Event.detach h2 (L h c._videoElement) := by
  rw [attachTrack_present L c w t h ht]
  refine ⟨rfl, ?_⟩
  intro w2 vt e he
  rcases detachTrack_trace _ w2 vt e he with ⟨h2, s2, hve2, hee⟩
  have hs2 : some (L h c._videoElement) = some s2 := hve2
  cases hs2
  exact ⟨h2, hee⟩

/-- C4, witness: attaching `trackB` to the component `cA` stores the value
returned by `L0`, and subsequent detaches use it. -/
theorem C4_witness :
    (_attachTrack L0 cA wA (some trackB)).1._videoElement =
      some (L0 1 cA._videoElement) ∧
    ∀ (w2 : World) (vt : Option VideoTrack) (e : Event),
      e ∈ (_detachTrack (_attachTrack L0 cA wA (some trackB)).1 w2 vt).2 →
      ∃ h2, e = Event.detach h2 (L0 1 cA._videoElement) :=
  C4_attach_stores_returned_surface L0 cA wA trackB 1 rfl

/-- C5: `_detachTrack` calls the external library's detach if and only if a
stored surface exists, the track argument is present, it has an underlying
media handle, and that handle's containers include the stored surface; in
particular `componentWillUnmount` invokes detach under exactly the same
four conditions on the current props. -/
theorem C5_detach_iff_guard (c : Comp) (w : World) (vt : Option VideoTrack) :
    ((_detachTrack c w vt).2 ≠ [] ↔
      ∃ s t h, c._videoElement = some s ∧ vt = some t ∧ t.jitsiTrack = some h ∧
        s ∈ w.containers h) ∧
    ((componentWillUnmount c w).2 ≠ [] ↔
      ∃ s t h, c._videoElement = some s ∧ c.props.videoTrack = some t ∧
        t.jitsiTrack = some h ∧ s ∈ w.containers h) := by
  have main : ∀ vt2 : Option VideoTrack, (_detachTrack c w vt2).2 ≠ [] ↔
      ∃ s t h, c._videoElement = some s ∧ vt2 = some t ∧ t.jitsiTrack = some h ∧
        s ∈ w.containers h := by
    intro vt2
    constructor
    · intro hne
      rcases hve : c._videoElement with _ | s
      · rw [detachTrack_noSurface c w vt2 hve] at hne
        exact absurd rfl hne
      · rcases vt2 with _ | t2
        · rw [detachTrack_absent c w none rfl] at hne
          exact absurd rfl hne
        · rcases ht : t2.jitsiTrack with _ | h1
          · rw [detachTrack_absent c w (some t2) ht] at hne
            exact absurd rfl hne
          · by_cases hmem : s ∈ w.containers h1
            · exact ⟨s, t2, h1, rfl, rfl, ht, hmem⟩
            · rw [detachTrack_notMem c w s t2 h1 hve ht hmem] at hne
              exact absurd rfl hne
    · rintro ⟨s, t2, h1, hve, rfl, ht, hmem⟩
      rw [detachTrack_mem c w s t2 h1 hve ht hmem]
      exact List.cons_ne_nil _ _
  exact ⟨main vt, main c.props.videoTrack⟩

/-- C6: at most one track is attached to the adapter's surface at any time:
in every state reachable from the unmounted component through mount,
updates, and unmount (mounting onto a fresh surface, with an attach call
that returns the given surface or a fresh one), at most one handle's
container set includes the stored surface. -/
theorem C6_at_most_one_attached (L : Lib) (c : Comp) (w : World)
    (hr : Reachable L c w) : atMostOneAttached c w := by
  intro s h1 h2 hve hs1 hs2
  have hI := reachable_surfaceOwnedBy L c w hr
  have e1 := hI s h1 hve hs1
  have e2 := hI s h2 hve hs2
  exact Option.some.inj (e1.symm.trans e2)

/-- C6, witness: the state just after mounting `pA` onto fresh surface `7`
in the empty world is reachable and satisfies the invariant. -/
theorem C6_witness :
    atMostOneAttached (hostMount L0 pA 7 w0).1 (hostMount L0 pA 7 w0).2.1 :=
  C6_at_most_one_attached L0 _ _
    (Reachable.mount pA 7 w0 (fun _ => List.not_mem_nil 7)
      (fun h s => Or.inr (fun _ => List.not_mem_nil (L0 h s))))

/-- C7: on mount with the surface already supplied, the adapter sets the
surface's volume to zero and registers the playing-state handler before the
attach call; with a valid track this yields exactly one attach call, and
the registered handler invokes the configured callback. -/
theorem C7_mount_mutes_then_attaches_once (L : Lib) (props : Props) (s0 : Surface)
    (w : World) (t : VideoTrack) (h : Handle)
    (hvt : props.videoTrack = some t) (ht : t.jitsiTrack = some h) :
    (hostMount L props s0 w).2.2 =
      [Event.setVolume s0 0, Event.setOnPlaying s0, Event.attach h (some s0)] ∧
    (hostMount L props s0 w).2.1.volume s0 = 0 ∧
    (hostMount L props s0 w).2.1.onplaying s0 = true ∧
    countAttach (hostMount L props s0 w).2.2 = 1 ∧
    (props.onVideoPlaying = true →
      _onVideoPlaying (hostMount L props s0 w).1 = [Event.playbackStarted]) := by
  have hj : jitsiTrackOf ({ _videoElement := some s0, props := props } : Comp).props.videoTrack
      = some h := by
    show jitsiTrackOf props.videoTrack = some h
    rw [hvt]
    exact ht
  rw [hostMount_eq, componentDidMount_eq L _ w s0 rfl, attachTrack_presentJ L _ _ _ h hj]
  refine ⟨rfl, ?_, ?_, rfl, ?_⟩
  · show (World.mountUpd w s0).volume s0 = 0
    simp [World.mountUpd]
  · show (World.mountUpd w s0).onplaying s0 = true
    simp [World.mountUpd]
  · intro hp
    show _onVideoPlaying { _videoElement := some (L h (some s0)), props := props } = _
    simp [_onVideoPlaying, hp]

/-- C7, witness: mounting `pA` (track with handle `0`) onto surface `7` in
the empty world. -/
theorem C7_witness :
    (hostMount L0 pA 7 w0).2.2 =
      [Event.setVolume 7 0, Event.setOnPlaying 7, Event.attach 0 (some 7)] ∧
    (hostMount L0 pA 7 w0).2.1.volume 7 = 0 ∧
    (hostMount L0 pA 7 w0).2.1.onplaying 7 = true ∧
    countAttach (hostMount L0 pA 7 w0).2.2 = 1 ∧
    (pA.onVideoPlaying = true →
      _onVideoPlaying (hostMount L0 pA 7 w0).1 = [Event.playbackStarted]) :=
  C7_mount_mutes_then_attaches_once L0 pA 7 w0 trackA 0 rfl rfl

/-- C8: when the track argument is absent or lacks an underlying media
handle, `_attachTrack` is a no-op — no call into the external library, and
the component state (including the stored surface) and world are unchanged;
in particular, mounting with no track performs no attach call. -/
theorem C8_attach_absent_noop (L : Lib) (c : Comp) (w : World) (vt : Option VideoTrack)
    (habs : jitsiTrackOf vt = none) :
    _attachTrack L c w vt = (c, w, []) ∧
    ∀ (props : Props) (s0 : Surface), props.videoTrack = none →
      countAttach (hostMount L props s0 w).2.2 = 0 := by
  refine ⟨attachTrack_absent L c w vt habs, ?_⟩
  intro props s0 hp
  have hj : jitsiTrackOf ({ _videoElement := some s0, props := props } : Comp).props.videoTrack
      = none := by
    show jitsiTrackOf props.videoTrack = none
    rw [hp]
    rfl
  rw [hostMount_eq, componentDidMount_eq L _ w s0 rfl, attachTrack_absent L _ _ _ hj]
  rfl

/-- C8, witness: `_attachTrack` with no track on the mounted component `cA`
is a no-op, and mounting `pNone` performs no attach call. -/
theorem C8_witness :
    _attachTrack L0 cA wA none = (cA, wA, []) ∧
    ∀ (props : Props) (s0 : Surface), props.videoTrack = none →
      countAttach (hostMount L0 props s0 wA).2.2 = 0 :=
  C8_attach_absent_noop L0 cA wA none rfl

lemma detachTrack_volume_onplaying (c : Comp) (w : World) (vt : Option VideoTrack) :
    (_detachTrack c w vt).1.volume = w.volume ∧
    (_detachTrack c w vt).1.onplaying = w.onplaying := by
  rcases hve : c._videoElement with _ | s
  · rw [detachTrack_noSurface c w vt hve]
    exact ⟨rfl, rfl⟩
  · rcases vt with _ | t
    · rw [detachTrack_absent c w none rfl]
      exact ⟨rfl, rfl⟩
    · rcases ht : t.jitsiTrack with _ | h1
      · rw [detachTrack_absent c w (some t) ht]
        exact ⟨rfl, rfl⟩
      · by_cases hmem : s ∈ w.containers h1
        · rw [detachTrack_mem c w s t h1 hve ht hmem]
          exact ⟨rfl, rfl⟩
        · rw [detachTrack_notMem c w s t h1 hve ht hmem]
          exact ⟨rfl, rfl⟩

lemma attachTrack_volume_onplaying (L : Lib) (c : Comp) (w : World) (vt : Option VideoTrack) :
    (_attachTrack L c w vt).2.1.volume = w.volume ∧
    (_attachTrack L c w vt).2.1.onplaying = w.onplaying := by
  rcases hnt : jitsiTrackOf vt with _ | h1
  · rw [attachTrack_absent L c w vt hnt]
    exact ⟨rfl, rfl⟩
  · rw [attachTrack_presentJ L c w vt h1 hnt]
    exact ⟨rfl, rfl⟩

/-- C9: the mute and the playing-state handler are written only at mount
time: the update hook, `_attachTrack` (even when the library replaces the
surface), `_detachTrack`, and unmount all leave every surface's `volume`
and `onplaying` fields unchanged. -/
theorem C9_only_mount_writes_element_fields (L : Lib) (c : Comp) (w : World)
    (next : Props) (vt : Option VideoTrack) (s2 : Surface) :
    (shouldComponentUpdate L c w next).2.2.1.volume s2 = w.volume s2 ∧
    (shouldComponentUpdate L c w next).2.2.1.onplaying s2 = w.onplaying s2 ∧
    (_attachTrack L c w vt).2.1.volume s2 = w.volume s2 ∧
    (_attachTrack L c w vt).2.1.onplaying s2 = w.onplaying s2 ∧
    (_detachTrack c w vt).1.volume s2 = w.volume s2 ∧
    (_detachTrack c w vt).1.onplaying s2 = w.onplaying s2 ∧
    (componentWillUnmount c w).1.volume s2 = w.volume s2 ∧
    (componentWillUnmount c w).1.onplaying s2 = w.onplaying s2 := by
  have ha := attachTrack_volume_onplaying L c w vt
  have hd := detachTrack_volume_onplaying c w vt
  have hu := detachTrack_volume_onplaying c w c.props.videoTrack
  have hs : (shouldComponentUpdate L c w next).2.2.1.volume = w.volume ∧
      (shouldComponentUpdate L c w next).2.2.1.onplaying = w.onplaying := by
    by_cases hj : jitsiTrackOf c.props.videoTrack = jitsiTrackOf next.videoTrack
    · rw [scu_same L c w next hj]
      exact ⟨rfl, rfl⟩
    · rw [scu_diff L c w next hj]
      have hd2 := detachTrack_volume_onplaying c w c.props.videoTrack
      have ha2 := attachTrack_volume_onplaying L c
        (_detachTrack c w c.props.videoTrack).1 next.videoTrack
      exact ⟨ha2.1.trans hd2.1, ha2.2.trans hd2.2⟩
  exact ⟨congrFun hs.1 s2, congrFun hs.2 s2, congrFun ha.1 s2, congrFun ha.2 s2,
    congrFun hd.1 s2, congrFun hd.2 s2, congrFun hu.1 s2, congrFun hu.2 s2⟩

/-- C10: the rendered tree depends only on the `className` and `id` props:
any two prop records agreeing on those fields render identically, whatever
their `videoTrack` and `onVideoPlaying` (and whatever surface is stored);
the output is one autoplay video placeholder carrying the surface-capture
`ref` callback, with no trace of the track. -/
theorem C10_render_depends_only_on_className_id (p1 p2 : Props) (e1 e2 : Option Surface)
    (hcl : p1.className = p2.className) (hid : p1.id = p2.id) :
    render { _videoElement := e1, props := p1 } =
      render { _videoElement := e2, props := p2 } ∧
    (render { _videoElement := e1, props := p1 }).videoChild.autoPlay = true ∧
    (render { _videoElement := e1, props := p1 }).videoChild.ref = true := by
  refine ⟨?_, rfl, rfl⟩
  simp only [render, hcl, hid]

/-- C10, witness: `pNone` and `pB` agree on `className` and `id` but differ
in track and callback; their renders coincide. -/
theorem C10_witness :
    render { _videoElement := none, props := pNone } =
      render { _videoElement := some 5, props := pB } ∧
    (render { _videoElement := none, props := pNone }).videoChild.autoPlay = true ∧
    (render { _videoElement := none, props := pNone }).videoChild.ref = true :=
  C10_render_depends_only_on_className_id pNone pB none (some 5) rfl rfl

end VideoSpec
